import Mathlib

/-!
Verification of the WebSocket servers in this repository.

The main subject is the metrics broadcast server
(`Websocket_testings/system_monitor/server.js`): an Express + `ws` process
holding a mutable `latestMetrics` JSON value and a `Set` of connected
clients.  Its three event handlers (`connection`, `message`, `close`) are
embedded below as pure state transitions producing a list of outbound
sends.  The two plain echo servers (`src/unnamed/part_000`,
`src/unnamed/part_001`) are embedded as their `message` handlers.

JavaScript's `JSON.parse` / `JSON.stringify` are modelled for the fragment
the repository exercises: `null`, booleans, integer numerals, strings
without escape sequences, arrays and objects, with whitespace skipping;
`JSON.stringify` emits the compact form with no inserted whitespace, as in
Node.
-/

/-- JSON values, as produced by `JSON.parse` on the fragment used here.
Numbers are modelled as integers (the payloads in the repository use only
integer numerals). -/
inductive Json where
  | null : Json
  | bool (b : Bool) : Json
  | num (n : Int) : Json
  | str (s : String) : Json
  | arr (xs : List Json) : Json
  | obj (fields : List (String × Json)) : Json

mutual

/-- Model of `JSON.stringify` (compact output, Node default). -/
def stringifyJson : Json → String
  | Json.null => "null"
  | Json.bool true => "true"
  | Json.bool false => "false"
  | Json.num n => toString n
  | Json.str s => "\"" ++ s ++ "\""
  | Json.arr xs => "[" ++ stringifyItems xs ++ "]"
  | Json.obj fs => "\x7b" ++ stringifyFields fs ++ "\x7d"

/-- Comma-separated serialization of array elements. -/
def stringifyItems : List Json → String
  | [] => ""
  | [x] => stringifyJson x
  | x :: y :: xs => stringifyJson x ++ "," ++ stringifyItems (y :: xs)

/-- Comma-separated serialization of object members. -/
def stringifyFields : List (String × Json) → String
  | [] => ""
  | [(k, v)] => "\"" ++ k ++ "\":" ++ stringifyJson v
  | (k, v) :: f :: fs =>
      "\"" ++ k ++ "\":" ++ stringifyJson v ++ "," ++ stringifyFields (f :: fs)

end

/-- JSON insignificant whitespace. -/
def isJsonWs (c : Char) : Bool :=
  c = ' ' || c = '\t' || c = '\n' || c = '\r'

/-- Drop leading JSON whitespace. -/
def skipWs : List Char → List Char
  | [] => []
  | c :: cs => if isJsonWs c then skipWs cs else c :: cs

/-- Consume an expected literal character sequence. -/
def eatLit : List Char → List Char → Option (List Char)
  | [], cs => some cs
  | _ :: _, [] => none
  | p :: ps, c :: cs => if c = p then eatLit ps cs else none

/-- Split off a maximal run of decimal digits. -/
def digitRun : List Char → List Char × List Char
  | [] => ([], [])
  | c :: cs =>
      if c.isDigit then
        let (d, r) := digitRun cs
        (c :: d, r)
      else ([], c :: cs)

/-- Numeric value of a digit run. -/
def digitsToNat (ds : List Char) : Nat :=
  ds.foldl (fun a c => a * 10 + (c.toNat - 48)) 0

/-- Read the body of a JSON string after the opening quote (no escape
sequences in the fragment used). -/
def strBody : List Char → Option (String × List Char)
  | [] => none
  | c :: cs =>
      if c = '"' then some ("", cs)
      else if c = '\\' then none
      else
        match strBody cs with
        | some (s, r) => some (String.mk (c :: s.data), r)
        | none => none

mutual

/-- Model of `JSON.parse`, one value: fuel-indexed recursive descent.
Returns the parsed value and the unconsumed input. -/
def parseVal : Nat → List Char → Option (Json × List Char)
  | 0, _ => none
  | f + 1, cs =>
      match skipWs cs with
      | [] => none
      | c :: rest =>
          if c = 'n' then (eatLit ['u', 'l', 'l'] rest).map (fun r => (Json.null, r))
          else if c = 't' then (eatLit ['r', 'u', 'e'] rest).map (fun r => (Json.bool true, r))
          else if c = 'f' then (eatLit ['a', 'l', 's', 'e'] rest).map (fun r => (Json.bool false, r))
          else if c = '"' then (strBody rest).map (fun p => (Json.str p.1, p.2))
          else if c = '-' then
            match digitRun rest with
            | ([], _) => none
            | (ds, r) => some (Json.num (-(digitsToNat ds : Int)), r)
          else if c.isDigit then
            match digitRun (c :: rest) with
            | (ds, r) => some (Json.num (digitsToNat ds), r)
          else if c = '[' then
            match skipWs rest with
            | ']' :: r2 => some (Json.arr [], r2)
            | cs2 =>
                match parseItems f cs2 with
                | some (vs, r2) => some (Json.arr vs, r2)
                | none => none
          else if c = '\x7b' then
            match skipWs rest with
            | '\x7d' :: r2 => some (Json.obj [], r2)
            | cs2 =>
                match parseFields f cs2 with
                | some (fs, r2) => some (Json.obj fs, r2)
                | none => none
          else none

/-- Array elements after `[`, including the closing `]`. -/
def parseItems : Nat → List Char → Option (List Json × List Char)
  | 0, _ => none
  | f + 1, cs =>
      match parseVal f cs with
      | none => none
      | some (v, r) =>
          match skipWs r with
          | ',' :: r2 =>
              match parseItems f r2 with
              | some (vs, r3) => some (v :: vs, r3)
              | none => none
          | ']' :: r2 => some ([v], r2)
          | _ => none

/-- Object members after an opening brace, including the closing brace. -/
def parseFields : Nat → List Char → Option (List (String × Json) × List Char)
  | 0, _ => none
  | f + 1, cs =>
      match skipWs cs with
      | '"' :: r =>
          match strBody r with
          | none => none
          | some (k, r2) =>
              match skipWs r2 with
              | ':' :: r3 =>
                  match parseVal f r3 with
                  | none => none
                  | some (v, r4) =>
                      match skipWs r4 with
                      | ',' :: r5 =>
                          match parseFields f r5 with
                          | some (fs, r6) => some ((k, v) :: fs, r6)
                          | none => none
                      | '\x7d' :: r5 => some ([(k, v)], r5)
                      | _ => none
              | _ => none
      | _ => none

end

/-- Model of `JSON.parse` on a whole payload: succeeds iff one value parses
and only whitespace remains; on any other input it throws, modelled as
`none`. -/
def JSONparse (s : String) : Option Json :=
  match parseVal (s.length + 1) s.data with
  | some (j, r) => if skipWs r = [] then some j else none
  | none => none

/-!
## The metrics server (`system_monitor/server.js`)

Clients are identified by natural numbers.  The server state is the
mutable `latestMetrics` value and the `clients` set; the JS `Set` is
modelled as a duplicate-free list in insertion order (its iteration
order).  Whether a socket's `readyState === WebSocket.OPEN` holds at
broadcast time is external to the server, so the `message` event carries a
readiness predicate.  Each handler returns the new state and the list of
`(recipient, text)` sends it performs, in order.
-/

/-- Identifier of one WebSocket connection object. -/
abbrev ClientId := Nat

/-- State of the metrics server: `let latestMetrics = {}` and
`const clients = new Set()`. -/
structure ServerState where
  latestMetrics : Json
  clients : List ClientId

/-- The state at `server.listen`: empty snapshot, no clients. -/
def initialState : ServerState :=
  { latestMetrics := Json.obj [], clients := [] }

/-- `clients.add(ws)`: a JS `Set` ignores an element already present and
appends a new one in iteration order. -/
def addClient (c : ClientId) (l : List ClientId) : List ClientId :=
  if c ∈ l then l else l ++ [c]

/-- The `wss.on('connection')` handler: `clients.add(ws)` then
`ws.send(JSON.stringify(latestMetrics))`. -/
def onConnection (c : ClientId) (s : ServerState) :
    ServerState × List (ClientId × String) :=
  ({ s with clients := addClient c s.clients },
   [(c, stringifyJson s.latestMetrics)])

/-- The `ws.on('message')` handler: `JSON.parse` inside `try`; on success
overwrite `latestMetrics` and send `JSON.stringify(metrics)` to every
member of `clients` whose `readyState === WebSocket.OPEN`; on failure the
`catch` only logs, leaving state untouched and sending nothing. -/
def onMessage (sender : ClientId) (message : String) (isOpen : ClientId → Bool)
    (s : ServerState) : ServerState × List (ClientId × String) :=
  match JSONparse message with
  | some metrics =>
      ({ s with latestMetrics := metrics },
       (s.clients.filter isOpen).map (fun cl => (cl, stringifyJson metrics)))
  | none => (s, [])

/-- The `ws.on('close')` handler: `clients.delete(ws)`. -/
def onClose (c : ClientId) (s : ServerState) :
    ServerState × List (ClientId × String) :=
  ({ s with clients := s.clients.erase c }, [])

/-- The `app.get('/metrics')` handler: `res.json(latestMetrics)`, whose
body is the JSON serialization of the snapshot. -/
def metricsEndpoint (s : ServerState) : String :=
  stringifyJson s.latestMetrics

/-- One event delivered to the single-threaded event loop. -/
inductive Event where
  | connect (c : ClientId) : Event
  | message (sender : ClientId) (payload : String) (isOpen : ClientId → Bool) : Event
  | close (c : ClientId) : Event

/-- Dispatch one event to its handler. -/
def step (s : ServerState) : Event → ServerState × List (ClientId × String)
  | Event.connect c => onConnection c s
  | Event.message c p op => onMessage c p op s
  | Event.close c => onClose c s

/-- Run the event loop over a sequence of events, accumulating all sends
in order. -/
def run (s : ServerState) : List Event → ServerState × List (ClientId × String)
  | [] => (s, [])
  | e :: es =>
      let r1 := step s e
      let r2 := run r1.1 es
      (r2.1, r1.2 ++ r2.2)

/-- The sends of an output log that are addressed to client `c`, in
delivery order. -/
def sendsTo (c : ClientId) (out : List (ClientId × String)) :
    List (ClientId × String) :=
  out.filter (fun p => p.1 == c)

/-- Does this event register client `c` (its `connection` event)? -/
def isConnectTo (c : ClientId) : Event → Bool
  | Event.connect c' => c' == c
  | _ => false

/-- Open/closed status of client `c`'s transport after a list of events,
starting from status `b`: a `connect` marks it open, a `close` marks it
closed. -/
def openStatus (c : ClientId) (b : Bool) : List Event → Bool
  | [] => b
  | Event.connect c' :: es => openStatus c (if c' == c then true else b) es
  | Event.close c' :: es => openStatus c (if c' == c then false else b) es
  | Event.message _ _ _ :: es => openStatus c b es

/-!
## The echo servers (`src/unnamed/part_000`, `src/unnamed/part_001`)

Both keep no state; their `message` handlers reply only to the sender.
`part_000` uses a template literal, so the reply interpolates the message;
`part_001` uses a single-quoted string, so JS performs no interpolation
and the reply is that literal text for every message.
-/

/-- `part_000` `ws.on('message')`:
`ws.send(` followed by a backtick template interpolating `message`. -/
def part000_onMessage (sender : ClientId) (message : String) :
    List (ClientId × String) :=
  [(sender, "Server received: " ++ message)]

/-- `part_001` `ws.on('message')`: `ws.send` of the single-quoted literal,
in which JS does not interpolate, so the reply text is constant. -/
def part001_onMessage (sender : ClientId) (message : String) :
    List (ClientId × String) :=
  [(sender, "Server recieved: $\x7bmessage\x7d")]

/-- The reply text of `part_000` as a function of the message. -/
def echoTransform000 (m : String) : String :=
  "Server received: " ++ m

/-- The reply text of `part_001` as a function of the message: constant,
because the single-quoted source string is not a template literal. -/
def echoTransform001 (_ : String) : String :=
  "Server recieved: $\x7bmessage\x7d"

/-!
## Helper lemmas
-/

theorem sendsTo_append (c : ClientId) (a b : List (ClientId × String)) :
    sendsTo c (a ++ b) = sendsTo c a ++ sendsTo c b := by
  simp [sendsTo, List.filter_append]

theorem sendsTo_map_of_not_mem (c : ClientId) (t : String) (l : List ClientId)
    (h : c ∉ l) : sendsTo c (l.map (fun x => (x, t))) = [] := by
  induction l with
  | nil => rfl
  | cons x xs ih =>
      rw [List.mem_cons, not_or] at h
      have hx : (x == c) = false := by
        simp only [beq_eq_false_iff_ne, ne_eq]
        exact fun e => h.1 e.symm
      simp only [List.map_cons, sendsTo, List.filter_cons, hx]
      simpa [sendsTo] using ih h.2

theorem sendsTo_map_of_mem (c : ClientId) (t : String) (l : List ClientId)
    (hnd : l.Nodup) (hm : c ∈ l) :
    sendsTo c (l.map (fun x => (x, t))) = [(c, t)] := by
  induction l with
  | nil => cases hm
  | cons x xs ih =>
      rw [List.nodup_cons] at hnd
      rcases List.mem_cons.mp hm with he | hm'
      · subst he
        simp only [List.map_cons, sendsTo, List.filter_cons, beq_self_eq_true]
        simpa [sendsTo] using sendsTo_map_of_not_mem c t xs hnd.1
      · have hx : (x == c) = false := by
          simp only [beq_eq_false_iff_ne, ne_eq]
          intro e
          exact hnd.1 (e ▸ hm')
        simp only [List.map_cons, sendsTo, List.filter_cons, hx]
        simpa [sendsTo] using ih hnd.2 hm'

theorem run_append (s : ServerState) (es1 es2 : List Event) :
    run s (es1 ++ es2) =
      ((run (run s es1).1 es2).1, (run s es1).2 ++ (run (run s es1).1 es2).2) := by
  induction es1 generalizing s with
  | nil => simp [run]
  | cons e es ih => simp [run, ih, List.append_assoc]

theorem mem_addClient_self (c : ClientId) (l : List ClientId) : c ∈ addClient c l := by
  unfold addClient
  split
  · assumption
  · simp

theorem mem_addClient_iff_of_ne (c c' : ClientId) (l : List ClientId) (h : c' ≠ c) :
    c ∈ addClient c' l ↔ c ∈ l := by
  unfold addClient
  split
  · exact Iff.rfl
  · simp [h.symm]

theorem addClient_nodup (c : ClientId) (l : List ClientId) (h : l.Nodup) :
    (addClient c l).Nodup := by
  unfold addClient
  split
  · exact h
  · next hn => simp [List.nodup_append, h, hn]

theorem onMessage_clients_eq (sender : ClientId) (p : String) (op : ClientId → Bool)
    (s : ServerState) : (onMessage sender p op s).1.clients = s.clients := by
  unfold onMessage
  split <;> rfl

theorem step_clients_nodup (s : ServerState) (e : Event) (h : s.clients.Nodup) :
    (step s e).1.clients.Nodup := by
  cases e with
  | connect c => exact addClient_nodup c s.clients h
  | message c p op => rw [step, onMessage_clients_eq]; exact h
  | close c => exact h.erase c

theorem run_clients_nodup (es : List Event) :
    ∀ s : ServerState, s.clients.Nodup → (run s es).1.clients.Nodup := by
  induction es with
  | nil => exact fun s h => h
  | cons e es ih => exact fun s h => ih _ (step_clients_nodup s e h)

theorem no_sends_before_connect (c : ClientId) :
    ∀ (es : List Event) (s : ServerState), c ∉ s.clients →
      (∀ e ∈ es, isConnectTo c e = false) →
      sendsTo c (run s es).2 = [] ∧ c ∉ (run s es).1.clients := by
  intro es
  induction es with
  | nil => exact fun s h _ => ⟨rfl, h⟩
  | cons e es ih =>
      intro s hc hall
      have he := hall e (List.mem_cons_self e es)
      have hrest : ∀ e' ∈ es, isConnectTo c e' = false :=
        fun e' h' => hall e' (List.mem_cons_of_mem e h')
      cases e with
      | connect c' =>
          have hne : c' ≠ c := by simpa [isConnectTo] using he
          have hc' : c ∉ addClient c' s.clients :=
            fun hm => hc ((mem_addClient_iff_of_ne c c' s.clients hne).mp hm)
          have hrun := ih { s with clients := addClient c' s.clients } hc' hrest
          constructor
          · show sendsTo c ((step s (Event.connect c')).2 ++ _) = []
            rw [sendsTo_append]
            have hhead : sendsTo c (step s (Event.connect c')).2 = [] := by
              have hx : (c' == c) = false := by
                simp only [beq_eq_false_iff_ne, ne_eq]; exact hne
              simp [step, onConnection, sendsTo, hx]
            rw [hhead]
            simpa [run] using hrun.1
          · simpa [run, step, onConnection] using hrun.2
      | message s' p op =>
          have hnm : c ∉ s.clients.filter op := fun hm => hc (List.mem_filter.mp hm).1
          have hclients : (onMessage s' p op s).1.clients = s.clients :=
            onMessage_clients_eq s' p op s
          have hc2 : c ∉ (onMessage s' p op s).1.clients := by rw [hclients]; exact hc
          have hrun := ih (onMessage s' p op s).1 hc2 hrest
          constructor
          · show sendsTo c ((step s (Event.message s' p op)).2 ++ _) = []
            rw [sendsTo_append]
            have hhead : sendsTo c (step s (Event.message s' p op)).2 = [] := by
              show sendsTo c (onMessage s' p op s).2 = []
              unfold onMessage
              split
              · exact sendsTo_map_of_not_mem c _ _ hnm
              · rfl
            rw [hhead]
            simpa [run] using hrun.1
          · simpa [run, step] using hrun.2
      | close c' =>
          have hc' : c ∉ s.clients.erase c' :=
            fun hm => hc (List.mem_of_mem_erase hm)
          have hrun := ih { s with clients := s.clients.erase c' } hc' hrest
          constructor
          · show sendsTo c ((step s (Event.close c')).2 ++ _) = []
            rw [sendsTo_append]
            have hhead : sendsTo c (step s (Event.close c')).2 = [] := rfl
            rw [hhead]
            simpa [run] using hrun.1
          · simpa [run, step, onClose] using hrun.2

theorem openStatus_run :
    ∀ (es : List Event) (s : ServerState), s.clients.Nodup → ∀ c : ClientId,
      openStatus c (decide (c ∈ s.clients)) es = decide (c ∈ (run s es).1.clients) := by
  intro es
  induction es with
  | nil => exact fun s _ c => rfl
  | cons e es ih =>
      intro s hnd c
      cases e with
      | connect c' =>
          have hacc : (if c' == c then true else decide (c ∈ s.clients)) =
              decide (c ∈ addClient c' s.clients) := by
            by_cases hcc : c' = c
            · subst hcc
              simp [mem_addClient_self]
            · have hx : (c' == c) = false := by
                simp only [beq_eq_false_iff_ne, ne_eq]; exact hcc
              simp only [hx, if_false]
              have hiff := mem_addClient_iff_of_ne c c' s.clients hcc
              exact decide_eq_decide.mpr hiff.symm
          show openStatus c (if c' == c then true else decide (c ∈ s.clients)) es = _
          rw [hacc]
          exact ih { s with clients := addClient c' s.clients }
            (addClient_nodup c' s.clients hnd) c
      | message s' p op =>
          have hclients : (onMessage s' p op s).1.clients = s.clients :=
            onMessage_clients_eq s' p op s
          show openStatus c (decide (c ∈ s.clients)) es = _
          rw [show decide (c ∈ s.clients) = decide (c ∈ (onMessage s' p op s).1.clients) by
            rw [hclients]]
          exact ih (onMessage s' p op s).1 (by rw [hclients]; exact hnd) c
      | close c' =>
          have hacc : (if c' == c then false else decide (c ∈ s.clients)) =
              decide (c ∈ s.clients.erase c') := by
            by_cases hcc : c' = c
            · subst hcc
              simp [List.Nodup.not_mem_erase hnd]
            · have hx : (c' == c) = false := by
                simp only [beq_eq_false_iff_ne, ne_eq]; exact hcc
              have hiff := List.mem_erase_of_ne (a := c) (b := c') (l := s.clients)
                (fun h => hcc h.symm)
              simp only [hx, if_false]
              exact decide_eq_decide.mpr hiff.symm
          show openStatus c (if c' == c then false else decide (c ∈ s.clients)) es = _
          rw [hacc]
          exact ih { s with clients := s.clients.erase c' } (hnd.erase c') c

theorem run_connects_clients :
    ∀ (L : List ClientId) (s : ServerState),
      (run s (L.map Event.connect)).1.clients =
        L.foldl (fun acc c => addClient c acc) s.clients := by
  intro L
  induction L with
  | nil => exact fun s => rfl
  | cons c L' ih =>
      intro s
      show (run { s with clients := addClient c s.clients } (L'.map Event.connect)).1.clients = _
      rw [ih { s with clients := addClient c s.clients }]
      rfl

theorem foldl_addClient_eq_append :
    ∀ (L acc : List ClientId), (acc ++ L).Nodup →
      L.foldl (fun a c => addClient c a) acc = acc ++ L := by
  intro L
  induction L with
  | nil => intro acc _; simp
  | cons c L' ih =>
      intro acc h
      have h' : ((acc ++ [c]) ++ L').Nodup := by
        rw [List.append_assoc]
        simpa using h
      have hcacc : c ∉ acc := by
        rw [List.nodup_append] at h
        intro hm
        exact h.2.2 hm (List.mem_cons_self c L')
      have hadd : addClient c acc = acc ++ [c] := by
        unfold addClient
        simp [hcacc]
      show L'.foldl (fun a c => addClient c a) (addClient c acc) = _
      rw [hadd, ih (acc ++ [c]) h', List.append_assoc]
      rfl

/-!
## Claim theorems
-/

/-- The concrete payload of the spec's scenario. -/
def cpu42 : String := "\x7b\"cpu\":42\x7d"

/-- The parse of that payload. -/
def cpu42Json : Json := Json.obj [("cpu", Json.num 42)]

/-- C1: if a connected client sends a payload on which JSON parsing fails,
the stored snapshot is unchanged, no send to any client occurs, the
handler returns normally (the `catch` swallows the exception), and the
sender stays in the active set. -/
theorem metrics_malformed_payload_harmless (sender : ClientId) (payload : String)
    (op : ClientId → Bool) (s : ServerState) (h : JSONparse payload = none) :
    onMessage sender payload op s = (s, []) ∧
    (sender ∈ s.clients → sender ∈ (onMessage sender payload op s).1.clients) := by
  unfold onMessage
  rw [h]
  exact ⟨rfl, fun hm => hm⟩

/-- Witness for C1 at the malformed payload `hello`. -/
theorem metrics_malformed_payload_harmless_witness :
    onMessage 0 "hello" (fun _ => true)
        { latestMetrics := Json.obj [], clients := [0, 1] } =
      ({ latestMetrics := Json.obj [], clients := [0, 1] }, []) ∧
    (0 : ClientId) ∈ (onMessage 0 "hello" (fun _ => true)
        { latestMetrics := Json.obj [], clients := [0, 1] }).1.clients := by
  have h := metrics_malformed_payload_harmless 0 "hello" (fun _ => true)
    { latestMetrics := Json.obj [], clients := [0, 1] } rfl
  exact ⟨h.1, h.2 (by simp)⟩

/-- C2: when client `A` sends `cpu42`, every other currently connected
open client receives exactly that payload (one send, with exactly that
text). -/
theorem metrics_cpu42_broadcast_to_others (A : ClientId) (op : ClientId → Bool)
    (s : ServerState) (hnd : s.clients.Nodup) :
    ∀ c ∈ s.clients, c ≠ A → op c = true →
      sendsTo c (onMessage A cpu42 op s).2 = [(c, cpu42)] := by
  intro c hc _ hop
  unfold onMessage
  rw [show JSONparse cpu42 = some cpu42Json from rfl]
  show sendsTo c ((s.clients.filter op).map
      (fun cl => (cl, stringifyJson cpu42Json))) = [(c, cpu42)]
  rw [sendsTo_map_of_mem c _ _ (hnd.filter op) (List.mem_filter.mpr ⟨hc, hop⟩)]
  rfl

/-- Witness for C2: clients 0,1,2 all open, 0 sends, 1 receives exactly
the payload. -/
theorem metrics_cpu42_broadcast_to_others_witness :
    sendsTo 1 (onMessage 0 cpu42 (fun _ => true)
        { latestMetrics := Json.obj [], clients := [0, 1, 2] }).2 = [(1, cpu42)] :=
  metrics_cpu42_broadcast_to_others 0 (fun _ => true)
    { latestMetrics := Json.obj [], clients := [0, 1, 2] }
    (by decide) 1 (by decide) (by decide) rfl

/-- C6: each echo-variant server replies to the sending client alone, with
a text that is a function of the received message only: for `part_000` the
interpolated template, for `part_001` the constant single-quoted source
literal (JS does not interpolate in single quotes). -/
theorem echo_reply_deterministic :
    (∀ (c : ClientId) (m : String), part000_onMessage c m = [(c, echoTransform000 m)]) ∧
    (∀ (c : ClientId) (m : String), part001_onMessage c m = [(c, echoTransform001 m)]) :=
  ⟨fun _ _ => rfl, fun _ _ => rfl⟩

/-- C8: the non-JSON text `hello` causes no broadcast and leaves the
snapshot (indeed the whole state) unchanged, for any sender, readiness
predicate and state. -/
theorem metrics_hello_discarded (sender : ClientId) (op : ClientId → Bool)
    (s : ServerState) : onMessage sender "hello" op s = (s, []) := by
  unfold onMessage
  rw [show JSONparse "hello" = none from rfl]

/-- C9: the `/metrics` endpoint returns the current snapshot serialized as
JSON, and after `cpu42` is processed it returns exactly that payload. -/
theorem metrics_endpoint_serves_snapshot :
    (∀ s : ServerState, metricsEndpoint s = stringifyJson s.latestMetrics) ∧
    (∀ (A : ClientId) (op : ClientId → Bool) (s : ServerState),
        metricsEndpoint (onMessage A cpu42 op s).1 = cpu42) := by
  refine ⟨fun s => rfl, fun A op s => ?_⟩
  unfold onMessage metricsEndpoint
  rw [show JSONparse cpu42 = some cpu42Json from rfl]
  rfl

/-- C7: on a payload that parses to `j`, the handler replaces the snapshot
with `j`, removes no member of the active set, sends the serialization of
`j` exactly once to each open member, and sends nothing at all to a member
whose transport is not writable (no buffering). -/
theorem metrics_valid_message_updates_and_broadcasts (sender : ClientId)
    (payload : String) (op : ClientId → Bool) (s : ServerState) (j : Json)
    (hnd : s.clients.Nodup) (h : JSONparse payload = some j) :
    (onMessage sender payload op s).1.latestMetrics = j ∧
    (onMessage sender payload op s).1.clients = s.clients ∧
    (∀ c ∈ s.clients, op c = true →
        sendsTo c (onMessage sender payload op s).2 = [(c, stringifyJson j)]) ∧
    (∀ c : ClientId, op c = false →
        sendsTo c (onMessage sender payload op s).2 = []) := by
  unfold onMessage
  rw [h]
  refine ⟨rfl, rfl, ?_, ?_⟩
  · intro c hc hop
    exact sendsTo_map_of_mem c _ _ (hnd.filter op) (List.mem_filter.mpr ⟨hc, hop⟩)
  · intro c hop
    apply sendsTo_map_of_not_mem
    intro hm
    have hmf := (List.mem_filter.mp hm).2
    rw [hop] at hmf
    exact Bool.false_ne_true hmf

/-- Witness for C7: two clients, client 1 not writable: snapshot replaced,
set intact, client 0 served once, client 1 skipped. -/
theorem metrics_valid_message_updates_and_broadcasts_witness :
    (onMessage 0 cpu42 (fun c => c == 0)
        { latestMetrics := Json.obj [], clients := [0, 1] }).1.latestMetrics = cpu42Json ∧
    (onMessage 0 cpu42 (fun c => c == 0)
        { latestMetrics := Json.obj [], clients := [0, 1] }).1.clients = [0, 1] ∧
    sendsTo 0 (onMessage 0 cpu42 (fun c => c == 0)
        { latestMetrics := Json.obj [], clients := [0, 1] }).2 = [(0, stringifyJson cpu42Json)] ∧
    sendsTo 1 (onMessage 0 cpu42 (fun c => c == 0)
        { latestMetrics := Json.obj [], clients := [0, 1] }).2 = [] := by
  have h := metrics_valid_message_updates_and_broadcasts 0 cpu42 (fun c => c == 0)
    { latestMetrics := Json.obj [], clients := [0, 1] } cpu42Json (by decide) rfl
  exact ⟨h.1, h.2.1, h.2.2.1 0 (by decide) (by decide), h.2.2.2 1 (by decide)⟩

/-- C10: on a successful parse the delivered text is
`JSON.stringify(JSON.parse(M))`, identical for every recipient; the
recipients are exactly the open members of the active set, the sender
included when open; and re-serialization can differ byte-for-byte from the
received payload. -/
theorem metrics_broadcast_reserializes (sender : ClientId) (payload : String)
    (op : ClientId → Bool) (s : ServerState) (j : Json)
    (h : JSONparse payload = some j) :
    (onMessage sender payload op s).2 =
        (s.clients.filter op).map (fun c => (c, stringifyJson j)) ∧
    (∀ p ∈ (onMessage sender payload op s).2, p.2 = stringifyJson j) ∧
    (sender ∈ s.clients → op sender = true →
        (sender, stringifyJson j) ∈ (onMessage sender payload op s).2) ∧
    (∃ m : String, ∃ v : Json, JSONparse m = some v ∧ stringifyJson v ≠ m) := by
  unfold onMessage
  rw [h]
  refine ⟨rfl, ?_, ?_, ?_⟩
  · intro p hp
    rcases List.mem_map.mp hp with ⟨c, _, rfl⟩
    rfl
  · intro hm hop
    exact List.mem_map.mpr ⟨sender, List.mem_filter.mpr ⟨hm, hop⟩, rfl⟩
  · exact ⟨"\x7b \"cpu\": 42 \x7d", cpu42Json, rfl, by decide⟩

/-- Witness for C10 with both clients open and client 0 the sender. -/
theorem metrics_broadcast_reserializes_witness :
    (onMessage 0 cpu42 (fun _ => true)
        { latestMetrics := Json.obj [], clients := [0, 1] }).2 =
      [(0, stringifyJson cpu42Json), (1, stringifyJson cpu42Json)] ∧
    (0, stringifyJson cpu42Json) ∈ (onMessage 0 cpu42 (fun _ => true)
        { latestMetrics := Json.obj [], clients := [0, 1] }).2 := by
  have h := metrics_broadcast_reserializes 0 cpu42 (fun _ => true)
    { latestMetrics := Json.obj [], clients := [0, 1] } cpu42Json rfl
  refine ⟨?_, h.2.2.1 (by decide) rfl⟩
  rw [h.1]
  rfl

/-- C3: a client `c` that was never connected before receives, as the very
first message ever delivered to it, the serialization of the snapshot
current at its connection. -/
theorem metrics_new_client_first_message (s0 : ServerState) (es1 es2 : List Event)
    (c : ClientId) (h0 : c ∉ s0.clients)
    (h1 : ∀ e ∈ es1, isConnectTo c e = false) :
    (sendsTo c (run s0 (es1 ++ Event.connect c :: es2)).2).head? =
      some (c, stringifyJson (run s0 es1).1.latestMetrics) := by
  have hout : (run s0 (es1 ++ Event.connect c :: es2)).2 =
      (run s0 es1).2 ++ (run (run s0 es1).1 (Event.connect c :: es2)).2 := by
    rw [run_append]
  rw [hout, sendsTo_append, (no_sends_before_connect c es1 s0 h0 h1).1,
    List.nil_append]
  have hcons : (run (run s0 es1).1 (Event.connect c :: es2)).2 =
      [(c, stringifyJson (run s0 es1).1.latestMetrics)] ++
        (run (step (run s0 es1).1 (Event.connect c)).1 es2).2 := rfl
  rw [hcons, sendsTo_append]
  have hsingle : sendsTo c [(c, stringifyJson (run s0 es1).1.latestMetrics)] =
      [(c, stringifyJson (run s0 es1).1.latestMetrics)] := by
    simp [sendsTo]
  rw [hsingle]
  rfl

/-- Witness for C3: after client 0 connects and stores `cpu42`, a fresh
client 1 connects and its first message is the `cpu42` snapshot. -/
theorem metrics_new_client_first_message_witness :
    (sendsTo 1 (run initialState
        ([Event.connect 0, Event.message 0 cpu42 (fun _ => true)] ++
          Event.connect 1 :: [])).2).head? = some (1, cpu42) := by
  have h := metrics_new_client_first_message initialState
    [Event.connect 0, Event.message 0 cpu42 (fun _ => true)] [] 1
    (by intro hm; cases hm)
    (by
      intro e he
      rcases List.mem_cons.mp he with rfl | he2
      · rfl
      · rcases List.mem_cons.mp he2 with rfl | he3
        · rfl
        · cases he3)
  rw [h]
  rfl

/-- C4: (a) after any event sequence from the start state, every member of
the active set has open transport status (its last connect/close event is
a connect); (b) the close handler removes the connection from the set
synchronously — it performs no sends (no deferred cleanup) and, for a
duplicate-free set, the closed connection is no longer a member. -/
theorem metrics_active_set_open_invariant :
    (∀ (es : List Event) (c : ClientId),
        c ∈ (run initialState es).1.clients → openStatus c false es = true) ∧
    (∀ (c : ClientId) (s : ServerState),
        (onClose c s).1.clients = s.clients.erase c ∧
        (onClose c s).2 = [] ∧
        (s.clients.Nodup → c ∉ (onClose c s).1.clients)) := by
  constructor
  · intro es c hc
    have h := openStatus_run es initialState (by simp [initialState]) c
    have h0 : decide (c ∈ initialState.clients) = false := by simp [initialState]
    rw [h0] at h
    rw [h]
    exact decide_eq_true hc
  · intro c s
    refine ⟨rfl, rfl, fun hnd => ?_⟩
    intro hm
    exact ((List.Nodup.mem_erase_iff hnd).mp hm).1 rfl

/-- Witness for C4 at a one-element trace and a one-element set. -/
theorem metrics_active_set_open_invariant_witness :
    openStatus 0 false [Event.connect 0] = true ∧
    (0 : ClientId) ∉ (onClose 0
        { latestMetrics := Json.obj [], clients := [0] }).1.clients := by
  constructor
  · exact metrics_active_set_open_invariant.1 [Event.connect 0] 0 (by decide)
  · exact (metrics_active_set_open_invariant.2 0
      { latestMetrics := Json.obj [], clients := [0] }).2.2 (by decide)

/-- C5: after the distinct clients of `L` connect and client `K`'s close
event is processed, the active set has `|L| − 1` members, and no
subsequently received message produces a send to `K`. -/
theorem metrics_disconnect_shrinks_and_silences (L : List ClientId) (K : ClientId)
    (hnd : L.Nodup) (hK : K ∈ L) :
    (run initialState (L.map Event.connect ++ [Event.close K])).1.clients.length =
        L.length - 1 ∧
    (∀ (sender : ClientId) (payload : String) (op : ClientId → Bool),
        sendsTo K (onMessage sender payload op
          (run initialState (L.map Event.connect ++ [Event.close K])).1).2 = []) := by
  have h1 : (run initialState (L.map Event.connect)).1.clients = L := by
    rw [run_connects_clients]
    have h2 := foldl_addClient_eq_append L [] (by simpa using hnd)
    simpa [initialState] using h2
  have h3 : (run initialState (L.map Event.connect ++ [Event.close K])).1 =
      (run (run initialState (L.map Event.connect)).1 [Event.close K]).1 := by
    rw [run_append]
  have hclients : (run initialState (L.map Event.connect ++ [Event.close K])).1.clients =
      L.erase K := by
    rw [h3]
    show (run initialState (L.map Event.connect)).1.clients.erase K = L.erase K
    rw [h1]
  constructor
  · rw [hclients]
    exact List.length_erase_of_mem hK
  · intro sender payload op
    have hKout : K ∉ (run initialState
        (L.map Event.connect ++ [Event.close K])).1.clients := by
      rw [hclients]
      intro hm
      exact ((List.Nodup.mem_erase_iff hnd).mp hm).1 rfl
    unfold onMessage
    split
    · exact sendsTo_map_of_not_mem K _ _
        (fun hm => hKout (List.mem_filter.mp hm).1)
    · rfl

/-- Witness for C5: clients 0,1,2 connect, client 1 closes; two members
remain and a later `cpu42` message from 0 is not delivered to 1. -/
theorem metrics_disconnect_shrinks_and_silences_witness :
    (run initialState ([0, 1, 2].map Event.connect ++
        [Event.close 1])).1.clients.length = 2 ∧
    sendsTo 1 (onMessage 0 cpu42 (fun _ => true)
        (run initialState ([0, 1, 2].map Event.connect ++
          [Event.close 1])).1).2 = [] := by
  have h := metrics_disconnect_shrinks_and_silences [0, 1, 2] 1 (by decide) (by decide)
  exact ⟨h.1, h.2 0 cpu42 (fun _ => true)⟩
